import Mathlib

/-!
Verification of the feed update engine of `staticrss.py` (willie-modules).

The development is a shallow embedding of the Python 2 source:

* Items, feed state, fetch results and the per-feed `update` method
  (`staticrss.py`, `Feed.update`, lines 312-410) become Lean structures and
  a total function `Feed.update`.  The one internal exception the embedding
  keeps is the `ZeroDivisionError` raised by `self.age % self.interval`
  when `interval == 0` (line 318); `Feed.update` returns
  `Except Feed UpdateResult`, where the `error` value carries the feed
  state at the moment the exception escapes (Python mutates `self.age`
  in place before raising).
* Timestamps (`old_time`, `time.mktime` values) are modelled as integers:
  the source only compares them with `<=` and takes `max`, and Python
  floats are totally ordered, so only the order structure matters.
  Cache validators (`etag`, `modified`) are uninterpreted strings.
* Python string `strip` / `replace` used by `Feed.guid` are modelled
  character-wise over `String.data`.
* The Python `set` `old_items` becomes `Finset String`.  `enable` keeps
  the Python iteration order as a list, because `Feed.msg` iterates it
  and returns early; the list fixes one arbitrary set iteration order.
* The state file is modelled at the granularity of its lines: `save`
  writes one line per token (`Feed.save`, lines 161-169) and `load`
  iterates lines and right-strips each (`Feed.load`, lines 141-158).
  The serialisation of the timestamp is kept as a parameter
  `toStr` / `parse`, standing for Python `unicode(...)` / `float(...)`.
* The scheduler `update_feeds` (lines 458-468) becomes `runTick` over the
  explicit traversal order `tickIndices`; an uncaught exception from
  `Feed.update` is propagated as `TickResult.raised` (the source has no
  handler around `update`; the lock is released by the `with` statement,
  which is outside the pure model).
-/

namespace StaticRSS

/-- One extracted feed entry, with the optional fields the source reads:
`guid`, `title`, `link`, `published` (raw string) and `published_parsed`
(already run through `time.mktime`, modelled as an integer timestamp). -/
structure Item where
  guid_field : Option String
  title : Option String
  link : Option String
  published : Option String
  published_parsed : Option Int
deriving DecidableEq

/-- Python `s.strip().replace(chr(10), chr(32))`: drop leading and trailing
whitespace, then replace every newline by a space (modelled over the
character list of the string). -/
def pyStrip (s : String) : String :=
  String.mk ((((s.data.dropWhile Char.isWhitespace).reverse.dropWhile
    Char.isWhitespace).reverse).map (fun c => if c = '\x0a' then ' ' else c))

/-- Python `line.rstrip()`: drop trailing whitespace. -/
def pyRstrip (s : String) : String :=
  String.mk ((s.data.reverse.dropWhile Char.isWhitespace).reverse)

/-- Mutable per-feed state of class `Feed` (`staticrss.py`), restricted to
the fields the update engine reads or writes.  Presentation-only fields
(`name`, `debug`, soup and rewrite configuration) are omitted. -/
structure Feed where
  max_items : Int
  url : String
  interval : Nat
  age : Nat
  backoff : Nat
  etag : Option String
  modified : Option String
  enable : Option (List String)
  exclude : List String
  old_items : Option (Finset String)
  old_time : Int
deriving DecidableEq

/-- Identifier derivation `Feed.guid` (lines 214-225): an explicit `guid`
field wins; otherwise the title, overwritten by the link when present,
with `#published` appended when a raw published string exists. -/
def Feed.guid (item : Item) : String :=
  match item.guid_field with
  | some g => pyStrip g
  | none =>
      let g := ""
      let g := match item.title with | some t => t | none => g
      let g := match item.link with | some l => l | none => g
      let g := match item.published with | some p => g ++ "#" ++ p | none => g
      pyStrip g

/-- Backoff growth `Feed.disable` (lines 172-173).  `backoff` and
`interval` are Python 2 ints, so `backoff / 10` is floor division,
modelled by natural division. -/
def Feed.disable (f : Feed) : Feed :=
  { f with backoff := f.backoff + (f.interval + f.backoff / 10) }

/-- Python `not channel or channel[0] != chr(35)`. -/
def invalidChannel (c : String) : Bool :=
  match c.data with
  | [] => true
  | ch :: _ => ch != '#'

/-- Loop body of `Feed.msg` (lines 179-187).  The source uses `return`
(not `continue`) on an invalid or excluded channel, so the whole
remaining iteration is abandoned. -/
def msgChannels (exclude : List String) : List String → List String
  | [] => []
  | c :: rest =>
      if invalidChannel c then []
      else if c ∈ exclude then []
      else c :: msgChannels exclude rest

/-- Destination filter `Feed.msg` (lines 176-187), returning the list of
channels that receive the message.  In the program `enable` is
initialised to an empty set and is never `None`, so the
`bot.privileges` fallback (the `none` branch) is unreachable;
`privileges` models `bot.privileges`. -/
def Feed.msg (f : Feed) (privileges : List String) : List String :=
  let channels := match f.enable with | some e => e | none => privileges
  msgChannels f.exclude channels

/-- Lines written by `Feed.save` (lines 161-169): first the serialised
`old_time`, then one identifier per line, in the iteration order `enum`
of the Python set. -/
def Feed.saveLines {T : Type} (toStr : T → String) (t : T) (enum : List String) : List String :=
  toStr t :: enum

/-- Line loop of `Feed.load` (lines 144-153): right-strip each line, skip
blanks, parse the first non-blank line as the timestamp, collect the
remaining non-blank lines into the identifier set. -/
def loadGo {T : Type} (parse : String → T) :
    List String → Option T → Finset String → Option T × Finset String
  | [], t, acc => (t, acc)
  | l :: rest, t, acc =>
      let l1 := pyRstrip l
      if l1 = "" then loadGo parse rest t acc
      else
        match t with
        | none => loadGo parse rest (some (parse l1)) acc
        | some _ => loadGo parse rest t (insert l1 acc)

/-- State-file reader `Feed.load` (lines 141-158) on the lines of the
file.  The first component is `some` exactly when a timestamp line was
seen (Python keeps `old_items = None` otherwise). -/
def Feed.loadLines {T : Type} (parse : String → T) (lines : List String) :
    Option T × Finset String :=
  loadGo parse lines none ∅

/-- Decision used implicitly by the dedup loop (lines 377-387): an item
qualifies when its identifier is not in `old` and its published time,
when present, is strictly newer than `old_time`. -/
def qualifies (old : Finset String) (old_time : Int) (item : Item) : Bool :=
  !(decide (Feed.guid item ∈ old)) &&
    (match item.published_parsed with
     | some t => decide (old_time < t)
     | none => true)

/-- Announce-or-count step (lines 388-391): announce while `skipped < 0`,
afterwards only count. -/
def announceStep (acc : Bool × List Item × Int) (item : Item) : Bool × List Item × Int :=
  if acc.2.2 < 0 then (true, acc.2.1 ++ [item], acc.2.2 + 1)
  else (true, acc.2.1, acc.2.2 + 1)

/-- One iteration of the dedup loop (lines 377-391) over the accumulator
(new item seen, announced items, skipped counter).  A known identifier
is skipped outright; an unknown one marks the snapshot as changed even
when its published time makes it stale. -/
def dedupStep (old : Finset String) (old_time : Int)
    (acc : Bool × List Item × Int) (item : Item) : Bool × List Item × Int :=
  if Feed.guid item ∈ old then acc
  else
    match item.published_parsed with
    | some t => if t ≤ old_time then (true, acc.2.1, acc.2.2) else announceStep acc item
    | none => announceStep acc item

/-- Dedup loop of `Feed.update` (lines 376-391), walking the items oldest
to newest (the caller passes the reversed entries) with
`skipped = -max_items` initially. -/
def dedupLoop (old : Finset String) (old_time : Int) (max_items : Int)
    (itemsOldestFirst : List Item) : Bool × List Item × Int :=
  itemsOldestFirst.foldl (dedupStep old old_time) (false, [], -max_items)

/-- Snapshot identifier set rebuilt at lines 399-401 (iterating the
reversed entries and adding every guid). -/
def snapshotGuids (entries : List Item) : Finset String :=
  ((entries.reverse).map Feed.guid).toFinset

/-- Timestamp advance at lines 402-403: only the first entry of the
snapshot is inspected, and only when it carries a parsed published
time. -/
def seedTime (old_time : Int) (entries : List Item) : Int :=
  match entries with
  | [] => old_time
  | e :: _ =>
      match e.published_parsed with
      | some t => max old_time t
      | none => old_time

/-- Result of a successful fetch, as the fields of the feedparser result
the engine reads: HTTP status (defaulted to 200), redirect target,
cache validators and the extracted entries, newest first. -/
structure FetchResult where
  status : Nat
  href : Option String
  etag : Option String
  modified : Option String
  entries : List Item
deriving DecidableEq

/-- Outcome of the download step (lines 320-340): either a fetch result,
or any of the caught exceptions (`HTTPError`, `IOError`, other), which
all lead to `disable()`. -/
inductive FetchOutcome where
  | ok : FetchResult → FetchOutcome
  | failure : FetchOutcome
deriving DecidableEq

/-- Classification of the return sites of `Feed.update`: `Skipped` is the
`return False` of the age gate; the other three are the `return True`
sites (after `disable()`, at the not-modified / same-validator early
returns, and at the end of a full pass). -/
inductive Outcome where
  | Skipped
  | Disabled
  | Unchanged
  | Updated
deriving DecidableEq

/-- Observable result of one `Feed.update` call: the classified return
site, the new feed state, the items passed to `new_item` in order, the
final value of the `skipped` counter (0 when the dedup loop did not
run) and whether `save()` was called. -/
structure UpdateResult where
  outcome : Outcome
  feed : Feed
  announced : List Item
  skippedCount : Int
  saved : Bool
deriving DecidableEq

/-- URL rewrite on a permanent redirect (lines 348-352). -/
def applyHref (f : Feed) (fp : FetchResult) : Feed :=
  match fp.href with
  | some h => if fp.status = 301 then { f with url := h } else f
  | none => f

/-- Body of `Feed.update` after a successful download (lines 343-410):
reset the backoff, follow a permanent redirect, short-circuit on 304 or
unchanged validators, run the dedup pass, rebuild the known-item set
when a new identifier was seen, store the new validators. -/
def Feed.processFetch (f0 : Feed) (fp : FetchResult) : UpdateResult :=
  let f1 : Feed := { f0 with backoff := 0 }
  let f2 : Feed := applyHref f1 fp
  if fp.status = 304 then
    { outcome := .Unchanged, feed := f2, announced := [], skippedCount := 0, saved := false }
  else if fp.etag ≠ none ∧ fp.etag = f2.etag then
    { outcome := .Unchanged, feed := f2, announced := [], skippedCount := 0, saved := false }
  else if fp.modified ≠ none ∧ fp.modified = f2.modified then
    { outcome := .Unchanged, feed := f2, announced := [], skippedCount := 0, saved := false }
  else
    match f2.old_items with
    | none =>
        { outcome := .Updated,
          feed := { f2 with
            old_items := some (snapshotGuids fp.entries),
            old_time := seedTime f2.old_time fp.entries,
            etag := fp.etag, modified := fp.modified },
          announced := [], skippedCount := 0, saved := true }
    | some old =>
        if fp.entries = [] then
          { outcome := .Updated,
            feed := { f2 with etag := fp.etag, modified := fp.modified },
            announced := [], skippedCount := 0, saved := false }
        else
          let tr := dedupLoop old f2.old_time f2.max_items fp.entries.reverse
          if tr.1 then
            { outcome := .Updated,
              feed := { f2 with
                old_items := some (snapshotGuids fp.entries),
                old_time := seedTime f2.old_time fp.entries,
                etag := fp.etag, modified := fp.modified },
              announced := tr.2.1, skippedCount := tr.2.2, saved := true }
          else
            { outcome := .Updated,
              feed := { f2 with etag := fp.etag, modified := fp.modified },
              announced := tr.2.1, skippedCount := tr.2.2, saved := false }

/-- Result of the age gate (lines 314-318). -/
inductive GateResult where
  | skip : Feed → GateResult
  | raise : Feed → GateResult
  | pass : Feed → GateResult
deriving DecidableEq

/-- Age gate of `Feed.update` (lines 314-318): accumulate the elapsed
time, skip when below `interval + backoff`, otherwise reduce the age
modulo the interval.  Python raises `ZeroDivisionError` at
`self.age % self.interval` when `interval == 0`, after `self.age` was
already incremented; `raise` carries that state. -/
def Feed.gate (f : Feed) (elapsed : Nat) : GateResult :=
  let age1 := f.age + elapsed
  if age1 < f.interval + f.backoff then .skip { f with age := age1 }
  else if f.interval = 0 then .raise { f with age := age1 }
  else .pass { f with age := age1 % f.interval }

/-- The method `Feed.update` (lines 312-410), with the download step
abstracted into a `FetchOutcome` argument.  `Except.error` is the
uncaught `ZeroDivisionError` of the gate. -/
def Feed.update (f : Feed) (elapsed : Nat) (fetch : FetchOutcome) :
    Except Feed UpdateResult :=
  match f.gate elapsed with
  | .skip f1 =>
      .ok { outcome := .Skipped, feed := f1, announced := [], skippedCount := 0, saved := false }
  | .raise f1 => .error f1
  | .pass f1 =>
      match fetch with
      | .failure =>
          .ok { outcome := .Disabled, feed := f1.disable, announced := [],
                skippedCount := 0, saved := false }
      | .ok fp => .ok (f1.processFetch fp)

/-- Traversal order of `update_feeds` (line 465): indices
`(i + next) % len(feeds)` for `i` in `range(len(feeds))`. -/
def tickIndices (n next : Nat) : List Nat :=
  (List.range n).map (fun i => (i + next) % n)

/-- Result of one scheduler tick over the feed list: the updated list of
(feed, fetch outcome) pairs together with the new rotation cursor;
`raised` marks an exception escaping `Feed.update` and aborting the
traversal. -/
inductive TickResult where
  | done : List (Feed × FetchOutcome) → Nat → TickResult
  | raised : List (Feed × FetchOutcome) → Nat → TickResult
deriving DecidableEq

/-- Loop body of `update_feeds` (lines 465-468): set `next` to one past
the current index, run the update, and stop as soon as an update
returns `True` (any outcome other than `Skipped`).  An exception from
`Feed.update` escapes with the cursor already advanced. -/
def runTick (elapsed : Nat) :
    List (Feed × FetchOutcome) → Nat → List Nat → TickResult
  | pairs, next, [] => .done pairs next
  | pairs, _, i :: rest =>
      let next1 := i + 1
      match pairs[i]? with
      | none => runTick elapsed pairs next1 rest
      | some (f, fo) =>
          match f.update elapsed fo with
          | .error f1 => .raised (pairs.set i (f1, fo)) next1
          | .ok r =>
              let pairs1 := pairs.set i (r.feed, fo)
              if r.outcome = .Skipped then runTick elapsed pairs1 next1 rest
              else .done pairs1 next1

/-- The scheduler entry point `update_feeds` (lines 458-468), one tick:
traverse the rotation order starting at `next` and wrapping once. -/
def update_feeds (pairs : List (Feed × FetchOutcome)) (elapsed next : Nat) : TickResult :=
  runTick elapsed pairs next (tickIndices pairs.length next)

/-- Projection helpers over the `Except` result of `Feed.update`. -/
def resOutcome (x : Except Feed UpdateResult) : Option Outcome :=
  match x with
  | .ok r => some r.outcome
  | .error _ => none

/-- Announced items of an update result (empty when the update raised). -/
def resAnnounced (x : Except Feed UpdateResult) : List Item :=
  match x with
  | .ok r => r.announced
  | .error _ => []

/-- Feed state after an update that did not raise. -/
def resFeed (x : Except Feed UpdateResult) : Option Feed :=
  match x with
  | .ok r => some r.feed
  | .error _ => none

/-- Whether `save()` was called by an update that did not raise. -/
def resSaved (x : Except Feed UpdateResult) : Option Bool :=
  match x with
  | .ok r => some r.saved
  | .error _ => none

/-- Persisted timestamp after an update that did not raise. -/
def resOldTime (x : Except Feed UpdateResult) : Option Int :=
  match x with
  | .ok r => some r.feed.old_time
  | .error _ => none

/-- Membership of an identifier in the known-item set after an update. -/
def resKnows (x : Except Feed UpdateResult) (g : String) : Bool :=
  match x with
  | .ok r =>
      match r.feed.old_items with
      | some s => decide (g ∈ s)
      | none => false
  | .error _ => false

/-- Modelled from the spec: the maximum published time among the fetched
items (0 when none carries one).  The spec asserts that the first
update persists this value as `lastSeenTime`; the source uses only the
first entry (`seedTime`). -/
def specMaxPublished (entries : List Item) : Int :=
  (entries.filterMap Item.published_parsed).foldl max 0

/-- Modelled from the spec: the backoff recurrence
`backoff += interval + backoff/10` read with real division, as in the
scenario figures 60, 126, 198.6 of the spec. -/
def specBackoffStep (interval b : ℚ) : ℚ :=
  b + (interval + b / 10)

/-! Concrete inputs shared by witnesses and counterexamples. -/

/-- Item with an explicit guid and no published time. -/
def itemG (g : String) : Item :=
  { guid_field := some g, title := none, link := none, published := none,
    published_parsed := none }

/-- Item with an explicit guid and a parsed published time. -/
def itemGT (g : String) (t : Int) : Item :=
  { guid_field := some g, title := none, link := none, published := none,
    published_parsed := some t }

/-- Fresh feed with a 60 second interval whose age gate passes on a 30
second tick (age 61 + 30 is at least 60). -/
def baseFeed : Feed :=
  { max_items := 5, url := "u", interval := 60, age := 61, backoff := 0,
    etag := none, modified := none, enable := some [], exclude := [],
    old_items := none, old_time := 0 }

/-- Plain 200 fetch result with no validators. -/
def mkFetch (entries : List Item) : FetchResult :=
  { status := 200, href := none, etag := none, modified := none, entries := entries }

/-- Serialiser used to instantiate the state-file round trip: a number n
becomes n copies of x followed by y. -/
def natToStrX (n : Nat) : String := String.mk (List.replicate n 'x' ++ ['y'])

/-- Parser inverse to `natToStrX`. -/
def strXToNat (s : String) : Nat := s.data.length - 1

/-- Feed with persisted state used by the C1 counterexample:
`max_items = 1` and an empty known set. -/
def feedC1 : Feed := { baseFeed with max_items := 1, old_items := some ∅ }

/-- Two new items, newest first. -/
def fetchC1 : FetchResult := mkFetch [itemG "b", itemG "a"]

/-- Fresh-state fetch whose first (newest-position) entry does not carry
the maximal published time. -/
def fetchC2 : FetchResult := mkFetch [itemGT "p" 100, itemGT "q" 200]

/-- Scheduler input for the C3 counterexample: the first feed fails its
fetch (outcome `Disabled`), the second would produce new content. -/
def pairsC3 : List (Feed × FetchOutcome) :=
  [(baseFeed, .failure), (baseFeed, .ok (mkFetch [itemG "z"]))]

/-- Feed with interval 0, the default when no per-feed interval is
configured. -/
def feedC6 : Feed := { baseFeed with interval := 0, age := 0 }

/-- Feed with a non-empty allow list whose excluded channel is iterated
first. -/
def feedC7b : Feed := { baseFeed with enable := some ["#a", "#b"], exclude := ["#a"] }

/-- Same allow list as `feedC7b` in the other iteration order. -/
def feedC7c : Feed := { baseFeed with enable := some ["#b", "#a"], exclude := ["#a"] }

/-- Scheduler input for the C8 counterexample: the first feed raises
inside `Feed.update` (interval 0), the second is never reached. -/
def pairsC8 : List (Feed × FetchOutcome) :=
  [(feedC6, .failure), (baseFeed, .ok (mkFetch [itemG "z"]))]

/-- Feed with persisted identifiers a and b. -/
def feedC9 : Feed := { baseFeed with old_items := some {"a", "b"} }

/-- Snapshot that dropped a and b and contains only the new item c. -/
def fetchC9 : FetchResult := mkFetch [itemG "c"]

/-- Feed whose age gate skips on a 30 second tick (0 + 30 below 60). -/
def skipFeed : Feed := { baseFeed with age := 0 }

/-- One-item snapshot with a published time. -/
def fetchW2 : FetchResult := mkFetch [itemGT "m" 500]

/-- Feed with persisted identifier a, used by the C1 witness. -/
def feedW1 : Feed := { baseFeed with old_items := some {"a"} }

/-- Snapshot with one new item d on top of the known item a. -/
def fetchW1 : FetchResult := mkFetch [itemG "d", itemG "a"]

/-- Feed with prior state and a stored etag, used by the C10 witness. -/
def feedW10 : Feed := { baseFeed with old_items := some {"a"}, etag := some "E1" }

/-- Snapshot with a fresh etag whose only identifier is already known. -/
def fetchW10 : FetchResult :=
  { status := 200, href := none, etag := some "E2", modified := none, entries := [itemG "a"] }

/-- Scheduler input for the C3 witness: a skipping feed followed by a
feed that produces an update. -/
def pairsW3 : List (Feed × FetchOutcome) :=
  [(skipFeed, FetchOutcome.failure), (baseFeed, FetchOutcome.ok fetchW2)]

/-- Scheduler input for the C8 witness: a skipping feed, then a feed
whose update raises, then a feed that is never reached. -/
def pairsW8 : List (Feed × FetchOutcome) :=
  [(skipFeed, FetchOutcome.failure), (feedC6, FetchOutcome.failure),
   (baseFeed, FetchOutcome.ok fetchW2)]

/-! Structural lemmas about the embedding. -/

/-- The guard conjunction of the three early returns at lines 348-367
(not modified, same etag, same modification time). -/
def noopGuard (f : Feed) (fp : FetchResult) : Prop :=
  fp.status = 304 ∨ (fp.etag ≠ none ∧ fp.etag = f.etag)
    ∨ (fp.modified ≠ none ∧ fp.modified = f.modified)

instance (f : Feed) (fp : FetchResult) : Decidable (noopGuard f fp) := by
  unfold noopGuard; infer_instance

/-- The gate only ever rewrites the age field. -/
theorem gate_pass_fields {f f1 : Feed} {e : Nat} (h : f.gate e = .pass f1) :
    f1 = { f with age := (f.age + e) % f.interval } := by
  simp only [Feed.gate] at h
  split at h
  · exact GateResult.noConfusion h
  · split at h
    · exact GateResult.noConfusion h
    · exact (GateResult.pass.inj h).symm

/-- The gate skip also only rewrites the age field. -/
theorem gate_skip_fields {f f1 : Feed} {e : Nat} (h : f.gate e = .skip f1) :
    f1 = { f with age := f.age + e } := by
  simp only [Feed.gate] at h
  split at h
  · exact (GateResult.skip.inj h).symm
  · split at h
    · exact GateResult.noConfusion h
    · exact GateResult.noConfusion h

/-- Case analysis on a non-raising `Feed.update` call: it skipped at the
gate, disabled after a failed fetch, or processed a fetch result. -/
theorem update_ok_cases {f : Feed} {e : Nat} {fo : FetchOutcome} {r : UpdateResult}
    (hu : f.update e fo = .ok r) :
    (∃ f1, f.gate e = .skip f1 ∧
        r = { outcome := .Skipped, feed := f1, announced := [], skippedCount := 0,
              saved := false })
    ∨ (∃ f1, f.gate e = .pass f1 ∧ fo = .failure ∧
        r = { outcome := .Disabled, feed := f1.disable, announced := [], skippedCount := 0,
              saved := false })
    ∨ (∃ f1 fp, f.gate e = .pass f1 ∧ fo = .ok fp ∧ r = f1.processFetch fp) := by
  unfold Feed.update at hu
  cases hg : f.gate e with
  | skip f1 =>
      rw [hg] at hu
      exact Or.inl ⟨f1, rfl, (Except.ok.inj hu).symm⟩
  | raise f1 =>
      rw [hg] at hu
      exact Except.noConfusion hu
  | pass f1 =>
      rw [hg] at hu
      cases fo with
      | failure => exact Or.inr (Or.inl ⟨f1, rfl, rfl, (Except.ok.inj hu).symm⟩)
      | ok fp => exact Or.inr (Or.inr ⟨f1, fp, rfl, rfl, (Except.ok.inj hu).symm⟩)

/-- The redirect rewrite only ever touches the url field. -/
theorem applyHref_fields (f : Feed) (fp : FetchResult) :
    (applyHref f fp).max_items = f.max_items ∧ (applyHref f fp).interval = f.interval
    ∧ (applyHref f fp).age = f.age ∧ (applyHref f fp).backoff = f.backoff
    ∧ (applyHref f fp).etag = f.etag ∧ (applyHref f fp).modified = f.modified
    ∧ (applyHref f fp).enable = f.enable ∧ (applyHref f fp).exclude = f.exclude
    ∧ (applyHref f fp).old_items = f.old_items ∧ (applyHref f fp).old_time = f.old_time := by
  unfold applyHref
  cases fp.href with
  | none => exact ⟨rfl, rfl, rfl, rfl, rfl, rfl, rfl, rfl, rfl, rfl⟩
  | some h => by_cases h301 : fp.status = 301 <;> simp [h301]

/-- After any successful fetch the backoff is reset to 0 (line 345),
whatever branch is taken afterwards. -/
theorem pf_backoff (f : Feed) (fp : FetchResult) : (f.processFetch fp).feed.backoff = 0 := by
  obtain ⟨-, -, -, hbk, -, -, -, -, -, -⟩ := applyHref_fields { f with backoff := 0 } fp
  simp only [Feed.processFetch]
  split
  · exact hbk
  · split
    · exact hbk
    · split
      · exact hbk
      · split
        · exact hbk
        · split
          · exact hbk
          · split
            · exact hbk
            · exact hbk

/-- A processed fetch returns `Unchanged` or `Updated`, never `Skipped`
or `Disabled`. -/
theorem pf_outcome (f : Feed) (fp : FetchResult) :
    (f.processFetch fp).outcome = .Unchanged ∨ (f.processFetch fp).outcome = .Updated := by
  simp only [Feed.processFetch]
  split
  · exact Or.inl rfl
  · split
    · exact Or.inl rfl
    · split
      · exact Or.inl rfl
      · split
        · exact Or.inr rfl
        · split
          · exact Or.inr rfl
          · split
            · exact Or.inr rfl
            · exact Or.inr rfl

/-- When one of the three no-op guards holds, processing returns
`Unchanged` and leaves the dedup state untouched. -/
theorem pf_noop {f : Feed} {fp : FetchResult} (hg : noopGuard f fp) :
    (f.processFetch fp).outcome = .Unchanged
    ∧ (f.processFetch fp).feed.old_items = f.old_items
    ∧ (f.processFetch fp).feed.old_time = f.old_time
    ∧ (f.processFetch fp).saved = false
    ∧ (f.processFetch fp).announced = [] := by
  obtain ⟨-, -, -, -, het, hmod, -, -, hoi, hot⟩ := applyHref_fields { f with backoff := 0 } fp
  simp only [Feed.processFetch]
  by_cases h1 : fp.status = 304
  · rw [if_pos h1]
    exact ⟨rfl, hoi, hot, rfl, rfl⟩
  · rw [if_neg h1]
    by_cases h2 : fp.etag ≠ none ∧ fp.etag = (applyHref { f with backoff := 0 } fp).etag
    · rw [if_pos h2]
      exact ⟨rfl, hoi, hot, rfl, rfl⟩
    · rw [if_neg h2]
      by_cases h3 : fp.modified ≠ none
          ∧ fp.modified = (applyHref { f with backoff := 0 } fp).modified
      · rw [if_pos h3]
        exact ⟨rfl, hoi, hot, rfl, rfl⟩
      · exfalso
        rcases hg with hA | hB | hC
        · exact h1 hA
        · exact h2 ⟨hB.1, hB.2.trans het.symm⟩
        · exact h3 ⟨hC.1, hC.2.trans hmod.symm⟩

/-- Closed form of the dedup loop: the changed flag records whether any
identifier is unknown, the announced items are the qualifying items in
order truncated to the available announcement budget, and the skipped
counter advances by the number of qualifying items. -/
theorem dedup_foldl (old : Finset String) (ot : Int) :
    ∀ (items : List Item) (b : Bool) (ann : List Item) (s : Int),
      items.foldl (dedupStep old ot) (b, ann, s) =
        (b || items.any (fun it => !(decide (Feed.guid it ∈ old))),
         ann ++ (items.filter (qualifies old ot)).take (-s).toNat,
         s + (items.countP (qualifies old ot) : Int)) := by
  intro items
  induction items with
  | nil =>
      intro b ann s
      simp
  | cons it its ih =>
      intro b ann s
      by_cases hmem : Feed.guid it ∈ old
      · have hq : qualifies old ot it = false := by
          simp [qualifies, hmem]
        simp only [List.foldl_cons, dedupStep, if_pos hmem]
        rw [ih]
        simp [hq, hmem, List.filter_cons, List.countP_cons]
      · cases hpp : it.published_parsed with
        | some t =>
            by_cases hle : t ≤ ot
            · have hq : qualifies old ot it = false := by
                simp [qualifies, hmem, hpp]
                omega
              simp only [List.foldl_cons, dedupStep, if_neg hmem, hpp, if_pos hle]
              rw [ih]
              simp [hq, hmem, List.filter_cons, List.countP_cons]
            · have hq : qualifies old ot it = true := by
                simp [qualifies, hmem, hpp]
                omega
              simp only [List.foldl_cons, dedupStep, if_neg hmem, hpp, if_neg hle]
              by_cases hs : s < 0
              · simp only [announceStep, if_pos hs]
                rw [ih]
                have htn : (-s).toNat = (-(s + 1)).toNat + 1 := by omega
                simp only [List.filter_cons, List.countP_cons, hq, if_pos rfl, htn,
                  List.take_succ_cons, Prod.mk.injEq]
                refine ⟨by simp [hmem], by simp, by push_cast; omega⟩
              · simp only [announceStep, if_neg hs]
                rw [ih]
                have htn1 : (-s).toNat = 0 := by omega
                have htn2 : (-(s + 1)).toNat = 0 := by omega
                simp only [List.filter_cons, List.countP_cons, hq, if_pos rfl, htn1, htn2,
                  List.take_zero, Prod.mk.injEq]
                refine ⟨by simp [hmem], by simp, by push_cast; omega⟩
        | none =>
            have hq : qualifies old ot it = true := by
              simp [qualifies, hmem, hpp]
            simp only [List.foldl_cons, dedupStep, if_neg hmem, hpp]
            by_cases hs : s < 0
            · simp only [announceStep, if_pos hs]
              rw [ih]
              have htn : (-s).toNat = (-(s + 1)).toNat + 1 := by omega
              simp only [List.filter_cons, List.countP_cons, hq, if_pos rfl, htn,
                List.take_succ_cons, Prod.mk.injEq]
              refine ⟨by simp [hmem], by simp, by push_cast; omega⟩
            · simp only [announceStep, if_neg hs]
              rw [ih]
              have htn1 : (-s).toNat = 0 := by omega
              have htn2 : (-(s + 1)).toNat = 0 := by omega
              simp only [List.filter_cons, List.countP_cons, hq, if_pos rfl, htn1, htn2,
                List.take_zero, Prod.mk.injEq]
              refine ⟨by simp [hmem], by simp, by push_cast; omega⟩

/-- Packaged form of `dedup_foldl` for the loop as called by the update
body. -/
theorem dedupLoop_spec (old : Finset String) (ot : Int) (m : Int) (items : List Item) :
    dedupLoop old ot m items =
      (items.any (fun it => !(decide (Feed.guid it ∈ old))),
       (items.filter (qualifies old ot)).take m.toNat,
       -m + (items.countP (qualifies old ot) : Int)) := by
  unfold dedupLoop
  rw [dedup_foldl]
  simp

/-- First successful pass with no prior state (lines 374, 398-404): no
announcement, the snapshot is seeded and saved. -/
theorem pf_seed {f : Feed} {fp : FetchResult} (hng : ¬ noopGuard f fp)
    (hoi : f.old_items = none) :
    (f.processFetch fp).outcome = .Updated
    ∧ (f.processFetch fp).announced = []
    ∧ (f.processFetch fp).saved = true
    ∧ (f.processFetch fp).feed.old_items = some (snapshotGuids fp.entries)
    ∧ (f.processFetch fp).feed.old_time = seedTime f.old_time fp.entries := by
  obtain ⟨-, -, -, -, het, hmod, -, -, hoi2, hot⟩ := applyHref_fields { f with backoff := 0 } fp
  have h1 : ¬ fp.status = 304 := fun h => hng (Or.inl h)
  have h2 : ¬ (fp.etag ≠ none ∧ fp.etag = (applyHref { f with backoff := 0 } fp).etag) :=
    fun h => hng (Or.inr (Or.inl ⟨h.1, h.2.trans het⟩))
  have h3 : ¬ (fp.modified ≠ none
      ∧ fp.modified = (applyHref { f with backoff := 0 } fp).modified) :=
    fun h => hng (Or.inr (Or.inr ⟨h.1, h.2.trans hmod⟩))
  have hoi3 : (applyHref { f with backoff := 0 } fp).old_items = none := hoi2.trans hoi
  simp only [Feed.processFetch]
  rw [if_neg h1, if_neg h2, if_neg h3, hoi3]
  refine ⟨rfl, rfl, rfl, rfl, ?_⟩
  rw [hot]

/-- Pass with prior state (lines 375-404): the announced items follow the
dedup loop and the known set is rebuilt exactly when some identifier of
the snapshot is unknown. -/
theorem pf_known {f : Feed} {fp : FetchResult} {old : Finset String}
    (hng : ¬ noopGuard f fp) (hoi : f.old_items = some old) :
    (f.processFetch fp).outcome = .Updated
    ∧ (f.processFetch fp).announced =
        ((fp.entries.reverse).filter (qualifies old f.old_time)).take f.max_items.toNat
    ∧ (f.processFetch fp).feed.etag = fp.etag
    ∧ (f.processFetch fp).feed.modified = fp.modified
    ∧ (if fp.entries.any (fun it => !(decide (Feed.guid it ∈ old)))
       then (f.processFetch fp).feed.old_items = some (snapshotGuids fp.entries)
            ∧ (f.processFetch fp).feed.old_time = seedTime f.old_time fp.entries
            ∧ (f.processFetch fp).saved = true
       else (f.processFetch fp).feed.old_items = f.old_items
            ∧ (f.processFetch fp).feed.old_time = f.old_time
            ∧ (f.processFetch fp).saved = false) := by
  obtain ⟨hmi, -, -, -, het, hmod, -, -, hoi2, hot⟩ := applyHref_fields { f with backoff := 0 } fp
  have h1 : ¬ fp.status = 304 := fun h => hng (Or.inl h)
  have h2 : ¬ (fp.etag ≠ none ∧ fp.etag = (applyHref { f with backoff := 0 } fp).etag) :=
    fun h => hng (Or.inr (Or.inl ⟨h.1, h.2.trans het⟩))
  have h3 : ¬ (fp.modified ≠ none
      ∧ fp.modified = (applyHref { f with backoff := 0 } fp).modified) :=
    fun h => hng (Or.inr (Or.inr ⟨h.1, h.2.trans hmod⟩))
  have hoi3 : (applyHref { f with backoff := 0 } fp).old_items = some old := hoi2.trans hoi
  simp only [Feed.processFetch]
  rw [if_neg h1, if_neg h2, if_neg h3]
  split
  next hnone =>
    rw [hoi3] at hnone
    exact Option.noConfusion hnone
  next old2 hsome =>
    have hold2 : old = old2 := Option.some.inj (hoi3.symm.trans hsome)
    subst hold2
    by_cases hemp : fp.entries = []
    · rw [if_pos hemp, hemp]
      refine ⟨rfl, by simp, rfl, rfl, ?_⟩
      rw [if_neg (by simp)]
      exact ⟨hoi2, hot, rfl⟩
    · rw [if_neg hemp]
      rw [dedupLoop_spec, List.any_reverse, hot, hmi]
      by_cases hany : fp.entries.any (fun it => !(decide (Feed.guid it ∈ old))) = true
      · rw [if_pos hany, if_pos hany]
        exact ⟨rfl, rfl, rfl, rfl, rfl, rfl, rfl⟩
      · rw [if_neg hany, if_neg hany]
        exact ⟨rfl, rfl, rfl, rfl, hoi2, rfl, rfl⟩

/-- The traversal order visits each index at most once. -/
theorem tickIndices_nodup (n next : Nat) : (tickIndices n next).Nodup := by
  unfold tickIndices
  refine List.Nodup.map_on ?_ (List.nodup_range n)
  intro i hi j hj hij
  rw [List.mem_range] at hi hj
  rcases Nat.eq_zero_or_pos n with hn | hn
  · omega
  · have h2 : i % n = j % n := Nat.ModEq.add_right_cancel' next hij
    rwa [Nat.mod_eq_of_lt hi, Nat.mod_eq_of_lt hj] at h2

/-- The traversal order covers exactly one lap over the feed list. -/
theorem tickIndices_length (n next : Nat) : (tickIndices n next).length = n := by
  simp [tickIndices]

/-- The tick loop runs through a run of skipping feeds, stops at the
first feed whose update returns anything but `Skipped`, sets the cursor
one past it, and leaves every feed outside the visited indices
untouched. -/
theorem runTick_stops (e : Nat) (i : Nat) (l2 : List Nat) :
    ∀ (l1 : List Nat) (pairs : List (Feed × FetchOutcome)) (next : Nat),
      (l1 ++ i :: l2).Nodup →
      (∀ j ∈ l1, ∃ f fo r, pairs[j]? = some (f, fo) ∧ f.update e fo = .ok r
          ∧ r.outcome = .Skipped) →
      (∃ f fo r, pairs[i]? = some (f, fo) ∧ f.update e fo = .ok r ∧ r.outcome ≠ .Skipped) →
      ∃ pairs1, runTick e pairs next (l1 ++ i :: l2) = .done pairs1 (i + 1)
        ∧ ∀ j, j ∉ l1 → j ≠ i → pairs1[j]? = pairs[j]? := by
  intro l1
  induction l1 with
  | nil =>
      intro pairs next hnd hskip hstop
      obtain ⟨f, fo, r, hget, hup, hout⟩ := hstop
      refine ⟨pairs.set i (r.feed, fo), ?_, ?_⟩
      · simp only [List.nil_append, runTick, hget, hup]
        rw [if_neg hout]
      · intro j hj1 hj2
        exact List.getElem?_set_ne (Ne.symm hj2)
  | cons j0 l1t ih =>
      intro pairs next hnd hskip hstop
      obtain ⟨f0, fo0, r0, hget0, hup0, hout0⟩ := hskip j0 (by simp)
      have hnd2 : (l1t ++ i :: l2).Nodup := hnd.of_cons
      have hj0notin : j0 ∉ l1t ++ i :: l2 := (List.nodup_cons.mp hnd).1
      have hj0l1 : j0 ∉ l1t := fun h => hj0notin (List.mem_append_left _ h)
      have hj0i : j0 ≠ i := fun h => hj0notin (List.mem_append_right _ (by simp [h]))
      have hskip2 : ∀ j ∈ l1t, ∃ f fo r, (pairs.set j0 (r0.feed, fo0))[j]? = some (f, fo)
          ∧ f.update e fo = .ok r ∧ r.outcome = .Skipped := by
        intro j hj
        have hne : j0 ≠ j := fun h => hj0l1 (h ▸ hj)
        rw [List.getElem?_set_ne hne]
        exact hskip j (by simp [hj])
      have hstop2 : ∃ f fo r, (pairs.set j0 (r0.feed, fo0))[i]? = some (f, fo)
          ∧ f.update e fo = .ok r ∧ r.outcome ≠ .Skipped := by
        rw [List.getElem?_set_ne hj0i]
        exact hstop
      obtain ⟨pairs1, heq, hframe⟩ := ih (pairs.set j0 (r0.feed, fo0)) (j0 + 1) hnd2 hskip2 hstop2
      refine ⟨pairs1, ?_, ?_⟩
      · simp only [List.cons_append, runTick, hget0, hup0]
        rw [if_pos hout0]
        exact heq
      · intro j hj1 hj2
        have hjne : j0 ≠ j := fun h => hj1 (by simp [h.symm])
        rw [hframe j (fun h => hj1 (by simp [h])) hj2]
        exact List.getElem?_set_ne hjne

/-- When the stopping feed raises instead, the tick propagates the error
with the cursor already advanced, leaving the unvisited feeds
untouched. -/
theorem runTick_raises (e : Nat) (i : Nat) (l2 : List Nat) :
    ∀ (l1 : List Nat) (pairs : List (Feed × FetchOutcome)) (next : Nat),
      (l1 ++ i :: l2).Nodup →
      (∀ j ∈ l1, ∃ f fo r, pairs[j]? = some (f, fo) ∧ f.update e fo = .ok r
          ∧ r.outcome = .Skipped) →
      (∃ f fo f1, pairs[i]? = some (f, fo) ∧ f.update e fo = .error f1) →
      ∃ pairs1, runTick e pairs next (l1 ++ i :: l2) = .raised pairs1 (i + 1)
        ∧ ∀ j, j ∉ l1 → j ≠ i → pairs1[j]? = pairs[j]? := by
  intro l1
  induction l1 with
  | nil =>
      intro pairs next hnd hskip hstop
      obtain ⟨f, fo, f1, hget, hup⟩ := hstop
      refine ⟨pairs.set i (f1, fo), ?_, ?_⟩
      · simp only [List.nil_append, runTick, hget, hup]
      · intro j hj1 hj2
        exact List.getElem?_set_ne (Ne.symm hj2)
  | cons j0 l1t ih =>
      intro pairs next hnd hskip hstop
      obtain ⟨f0, fo0, r0, hget0, hup0, hout0⟩ := hskip j0 (by simp)
      have hnd2 : (l1t ++ i :: l2).Nodup := hnd.of_cons
      have hj0notin : j0 ∉ l1t ++ i :: l2 := (List.nodup_cons.mp hnd).1
      have hj0l1 : j0 ∉ l1t := fun h => hj0notin (List.mem_append_left _ h)
      have hj0i : j0 ≠ i := fun h => hj0notin (List.mem_append_right _ (by simp [h]))
      have hskip2 : ∀ j ∈ l1t, ∃ f fo r, (pairs.set j0 (r0.feed, fo0))[j]? = some (f, fo)
          ∧ f.update e fo = .ok r ∧ r.outcome = .Skipped := by
        intro j hj
        have hne : j0 ≠ j := fun h => hj0l1 (h ▸ hj)
        rw [List.getElem?_set_ne hne]
        exact hskip j (by simp [hj])
      have hstop2 : ∃ f fo f1, (pairs.set j0 (r0.feed, fo0))[i]? = some (f, fo)
          ∧ f.update e fo = .error f1 := by
        rw [List.getElem?_set_ne hj0i]
        exact hstop
      obtain ⟨pairs1, heq, hframe⟩ := ih (pairs.set j0 (r0.feed, fo0)) (j0 + 1) hnd2 hskip2 hstop2
      refine ⟨pairs1, ?_, ?_⟩
      · simp only [List.cons_append, runTick, hget0, hup0]
        rw [if_pos hout0]
        exact heq
      · intro j hj1 hj2
        have hjne : j0 ≠ j := fun h => hj1 (by simp [h.symm])
        rw [hframe j (fun h => hj1 (by simp [h])) hj2]
        exact List.getElem?_set_ne hjne

/-- Reading the identifier lines accumulates exactly their set. -/
theorem loadGo_some {T : Type} (parse : String → T) (t : T) :
    ∀ (rest : List String) (acc : Finset String),
      (∀ s ∈ rest, pyRstrip s = s ∧ s ≠ "") →
      loadGo parse rest (some t) acc = (some t, acc ∪ rest.toFinset) := by
  intro rest
  induction rest with
  | nil =>
      intro acc h
      simp [loadGo]
  | cons s rs ih =>
      intro acc h
      obtain ⟨hs1, hs2⟩ := h s (by simp)
      have hrs : ∀ x ∈ rs, pyRstrip x = x ∧ x ≠ "" := fun x hx => h x (by simp [hx])
      simp only [loadGo, hs1]
      rw [if_neg hs2]
      rw [ih (insert s acc) hrs]
      refine congrArg (Prod.mk (some t)) ?_
      ext x
      simp only [Finset.mem_union, Finset.mem_insert, List.toFinset_cons, List.mem_toFinset]
      tauto

/-- Claim C1, counterexample: with `max_items = 1`, prior state present
and two fetched items whose identifiers are both absent from the
persisted set and which carry no published time, only the older item is
passed to `new_item`; the newer item satisfies the right-hand side of
the claimed equivalence (identifier absent, no published time) and yet
is not announced, so the stated iff fails. -/
theorem C1_cap_counterexample :
    resAnnounced (Feed.update feedC1 30 (.ok fetchC1)) = [itemG "a"]
    ∧ Feed.guid (itemG "b") ∉ (∅ : Finset String)
    ∧ (itemG "b").published_parsed = none
    ∧ itemG "b" ∈ fetchC1.entries
    ∧ itemG "b" ∉ [itemG "a"] := by
  exact ⟨by decide, by decide, rfl, by decide, by decide⟩

/-- Claim C2, counterexample: on a first successful update the source
sets `lastSeenTime` from `entries[0]` only (line 402-403).  With a
snapshot whose first entry has published time 100 and second entry 200,
the persisted time is 100 while the maximum published time among the
fetched items is 200. -/
theorem C2_seed_counterexample :
    resOldTime (Feed.update baseFeed 30 (.ok fetchC2)) = some 100
    ∧ specMaxPublished fetchC2.entries = 200
    ∧ (100 : Int) ≠ 200 := by
  exact ⟨by decide, by decide, by decide⟩

/-- Claim C3, counterexample: the first feed of `pairsC3` returns
`Disabled` (fetch failure), and the traversal stops there: the cursor
becomes 1 and the second feed is left untouched (its age is not even
incremented), although the claim says `Disabled` does not count toward
the stop condition and a full lap should have visited feed 1. -/
theorem C3_stop_counterexample :
    update_feeds pairsC3 30 0 =
      .done [({ baseFeed with age := 31, backoff := 60 }, .failure),
             (baseFeed, .ok (mkFetch [itemG "z"]))] 1 := by
  decide

/-- Claim C4, counterexample: `backoff` and `interval` are Python 2
integers, so `backoff / 10` is floor division and the third consecutive
failure with interval 60 yields backoff exactly 198, not the 198.6 that
the real-division recurrence of the claim produces. -/
theorem C4_floor_counterexample :
    baseFeed.disable.backoff = 60
    ∧ baseFeed.disable.disable.backoff = 126
    ∧ baseFeed.disable.disable.disable.backoff = 198
    ∧ specBackoffStep 60 (specBackoffStep 60 (specBackoffStep 60 0)) = 993 / 5
    ∧ (198 : ℚ) ≠ 993 / 5 := by
  refine ⟨by decide, by decide, by decide, by norm_num [specBackoffStep], by norm_num⟩

/-- Claim C5, counterexample: an identifier that is the empty string is
written by `save` as a blank line, which `load` skips, so the loaded
set is empty instead of containing the empty identifier: the round
trip fails for that identifier set. -/
theorem C5_blank_counterexample :
    Feed.loadLines strXToNat (Feed.saveLines natToStrX 0 [""]) = (some 0, (∅ : Finset String))
    ∧ ("" ∈ ([""] : List String).toFinset) := by
  exact ⟨rfl, by decide⟩

/-- Claim C6: with a per-feed interval of 0 (the default when none is
configured) and an empty backoff, the age gate passes on every tick and
`self.age % self.interval` raises `ZeroDivisionError` (line 318).  The
update does not complete normally: it propagates the error with the age
already incremented. -/
theorem C6_interval_zero_raises :
    Feed.update feedC6 30 FetchOutcome.failure = .error { feedC6 with age := 30 } := rfl

/-- Claim C7: with the default empty allow list, `Feed.msg` iterates the
empty set and nobody receives the message (`self.enable is not None`
always holds, so `bot.privileges` is dead code); and with a non-empty
allow list, an excluded channel aborts the whole loop (`return`, not
`continue`), so whether the other channel receives the message depends
on iteration order: destinations are not evaluated independently. -/
theorem C7_msg_filter_bugs :
    Feed.msg baseFeed ["#chan"] = []
    ∧ baseFeed.enable = some []
    ∧ Feed.msg feedC7b [] = []
    ∧ Feed.msg feedC7c [] = ["#b"] := by
  exact ⟨rfl, rfl, by decide, by decide⟩

/-- Claim C8, counterexample: `update_feeds` has no handler around
`Feed.update` (lines 465-468).  When the first feed raises
(ZeroDivisionError from interval 0), the traversal aborts: the result
is `raised`, the cursor has advanced past the failing feed, and the
second feed is left untouched instead of being processed this tick. -/
theorem C8_uncaught_counterexample :
    update_feeds pairsC8 30 0 =
      .raised [({ feedC6 with age := 30 }, .failure),
               (baseFeed, .ok (mkFetch [itemG "z"]))] 1 := by
  decide

/-- Claim C9, counterexample: a feed with persisted identifiers a and b
receives a snapshot containing only the new item c; the update replaces
the known-item set by the snapshot set, so b, previously present, is
dropped without any explicit reset. -/
theorem C9_shrink_counterexample :
    ("b" ∈ ({"a", "b"} : Finset String))
    ∧ feedC9.old_items = some {"a", "b"}
    ∧ resKnows (Feed.update feedC9 30 (.ok fetchC9)) "b" = false
    ∧ resKnows (Feed.update feedC9 30 (.ok fetchC9)) "c" = true
    ∧ resOutcome (Feed.update feedC9 30 (.ok fetchC9)) = some .Updated := by
  exact ⟨by decide, rfl, by decide, by decide, by decide⟩

/-- Claim C1 (amended): for an update with prior state whose fetch
succeeds and reaches the dedup pass (outcome `Updated`), the announced
items are exactly the qualifying items (identifier absent from the
persisted set, and no published time or published time strictly newer
than the persisted `lastSeenTime`), walked oldest to newest and
truncated to the first `max_items` of them.  The truncation clause is
what the original claim is missing. -/
theorem C1_announced {f : Feed} {e : Nat} {fp : FetchResult} {r : UpdateResult}
    {old : Finset String} (hold : f.old_items = some old)
    (hu : f.update e (.ok fp) = .ok r) (hout : r.outcome = .Updated) :
    r.announced =
      ((fp.entries.reverse).filter (qualifies old f.old_time)).take f.max_items.toNat := by
  rcases update_ok_cases hu with ⟨f1, hg, hr⟩ | ⟨f1, hg, hfo, hr⟩ | ⟨f1, fp1, hg, hfo, hr⟩
  · rw [hr] at hout
    simp at hout
  · exact FetchOutcome.noConfusion hfo
  · have hfp : fp = fp1 := FetchOutcome.ok.inj hfo
    subst hfp
    have hf1 : f1 = { f with age := (f.age + e) % f.interval } := gate_pass_fields hg
    subst hf1
    by_cases hng : noopGuard { f with age := (f.age + e) % f.interval } fp
    · rw [hr] at hout
      rw [(pf_noop hng).1] at hout
      simp at hout
    · have hk := pf_known hng (show Feed.old_items { f with age := (f.age + e) % f.interval }
        = some old from hold)
      rw [hr]
      exact hk.2.1

/-- Claim C1, witness at a concrete input: one known and one new
identifier, the new one announced. -/
theorem C1_announced_witness :
    ∃ r, Feed.update feedW1 30 (.ok fetchW1) = .ok r ∧ r.outcome = .Updated
      ∧ r.announced = ((fetchW1.entries.reverse).filter
          (qualifies {"a"} feedW1.old_time)).take feedW1.max_items.toNat := by
  obtain ⟨r, hr⟩ : ∃ r, Feed.update feedW1 30 (.ok fetchW1) = .ok r := ⟨_, rfl⟩
  have h2 : resOutcome (Feed.update feedW1 30 (.ok fetchW1)) = some Outcome.Updated := by decide
  rw [hr] at h2
  have hout : r.outcome = .Updated := Option.some.inj h2
  exact ⟨r, hr, hout, C1_announced rfl hr hout⟩

/-- Claim C2 (amended): a first successful update (no prior state) that
reaches the dedup pass announces nothing, persists the snapshot
identifier set, and advances `lastSeenTime` using only the published
time of the first fetched entry when it has one (`seedTime`), not the
maximum over all entries as originally claimed. -/
theorem C2_first_update {f : Feed} {e : Nat} {fp : FetchResult} {r : UpdateResult}
    (hold : f.old_items = none)
    (hu : f.update e (.ok fp) = .ok r) (hout : r.outcome = .Updated) :
    r.announced = [] ∧ r.saved = true
    ∧ r.feed.old_items = some (snapshotGuids fp.entries)
    ∧ r.feed.old_time = seedTime f.old_time fp.entries := by
  rcases update_ok_cases hu with ⟨f1, hg, hr⟩ | ⟨f1, hg, hfo, hr⟩ | ⟨f1, fp1, hg, hfo, hr⟩
  · rw [hr] at hout
    simp at hout
  · exact FetchOutcome.noConfusion hfo
  · have hfp : fp = fp1 := FetchOutcome.ok.inj hfo
    subst hfp
    have hf1 : f1 = { f with age := (f.age + e) % f.interval } := gate_pass_fields hg
    subst hf1
    by_cases hng : noopGuard { f with age := (f.age + e) % f.interval } fp
    · rw [hr] at hout
      rw [(pf_noop hng).1] at hout
      simp at hout
    · have hs := pf_seed hng (show Feed.old_items { f with age := (f.age + e) % f.interval }
        = none from hold)
      rw [hr]
      exact ⟨hs.2.1, hs.2.2.1, hs.2.2.2.1, hs.2.2.2.2⟩

/-- Claim C2, witness at a concrete input: a fresh feed seeding from a
one-item snapshot. -/
theorem C2_first_update_witness :
    ∃ r, Feed.update baseFeed 30 (.ok fetchW2) = .ok r ∧ r.outcome = .Updated
      ∧ r.announced = [] ∧ r.saved = true
      ∧ r.feed.old_items = some (snapshotGuids fetchW2.entries)
      ∧ r.feed.old_time = seedTime baseFeed.old_time fetchW2.entries := by
  obtain ⟨r, hr⟩ : ∃ r, Feed.update baseFeed 30 (.ok fetchW2) = .ok r := ⟨_, rfl⟩
  have h2 : resOutcome (Feed.update baseFeed 30 (.ok fetchW2)) = some Outcome.Updated := by decide
  rw [hr] at h2
  have hout : r.outcome = .Updated := Option.some.inj h2
  obtain ⟨ha, hb, hc, hd⟩ := C2_first_update rfl hr hout
  exact ⟨r, hr, hout, ha, hb, hc, hd⟩

/-- Claim C4 (amended): after a `Disabled` outcome the backoff has grown
by `interval + backoff / 10` with integer floor division (hence is
never smaller than before); after an `Updated` or `Unchanged` outcome
it is exactly 0; with interval 60 three consecutive failures give the
sequence 60, 126, 198 (not 198.6). -/
theorem C4_backoff {f : Feed} {e : Nat} {fo : FetchOutcome} {r : UpdateResult}
    (hu : f.update e fo = .ok r) :
    (r.outcome = .Disabled →
        f.backoff ≤ r.feed.backoff
        ∧ r.feed.backoff = f.backoff + (f.interval + f.backoff / 10))
    ∧ ((r.outcome = .Updated ∨ r.outcome = .Unchanged) → r.feed.backoff = 0)
    ∧ baseFeed.disable.backoff = 60
    ∧ baseFeed.disable.disable.backoff = 126
    ∧ baseFeed.disable.disable.disable.backoff = 198 := by
  refine ⟨?_, ?_, by decide, by decide, by decide⟩
  · intro hD
    rcases update_ok_cases hu with ⟨f1, hg, hr⟩ | ⟨f1, hg, hfo, hr⟩ | ⟨f1, fp1, hg, hfo, hr⟩
    · rw [hr] at hD
      simp at hD
    · have hf1 : f1 = { f with age := (f.age + e) % f.interval } := gate_pass_fields hg
      subst hf1
      rw [hr]
      exact ⟨Nat.le_add_right _ _, rfl⟩
    · rw [hr] at hD
      rcases pf_outcome f1 fp1 with hA | hA
      · exact absurd (hA.symm.trans hD) (by decide)
      · exact absurd (hA.symm.trans hD) (by decide)
  · intro hUU
    rcases update_ok_cases hu with ⟨f1, hg, hr⟩ | ⟨f1, hg, hfo, hr⟩ | ⟨f1, fp1, hg, hfo, hr⟩
    · rw [hr] at hUU
      rcases hUU with h | h <;> simp at h
    · rw [hr] at hUU
      rcases hUU with h | h <;> simp at h
    · rw [hr]
      exact pf_backoff f1 fp1

/-- Claim C4, witness at a concrete input: one failed fetch grows the
backoff from 0 to 60. -/
theorem C4_backoff_witness :
    ∃ r, Feed.update baseFeed 30 FetchOutcome.failure = .ok r ∧ r.outcome = .Disabled
      ∧ baseFeed.backoff ≤ r.feed.backoff
      ∧ r.feed.backoff = baseFeed.backoff + (baseFeed.interval + baseFeed.backoff / 10) := by
  obtain ⟨r, hr⟩ : ∃ r, Feed.update baseFeed 30 FetchOutcome.failure = .ok r := ⟨_, rfl⟩
  have h2 : resOutcome (Feed.update baseFeed 30 FetchOutcome.failure)
      = some Outcome.Disabled := by decide
  rw [hr] at h2
  have hout : r.outcome = .Disabled := Option.some.inj h2
  obtain ⟨ha, hb⟩ := (C4_backoff hr).1 hout
  exact ⟨r, hr, hout, ha, hb⟩

/-- Claim C5 (amended): for identifier sets whose elements survive a
right strip and are non-empty (which excludes the empty identifier of
the counterexample, and holds for every newline-free non-empty token),
and for a timestamp serialiser that round-trips (as Python 2.7
`float(str(x))` does, bit for bit), `Save` followed by `Load`
reproduces the timestamp and exactly the identifier set, whatever the
order in which the identifiers were written. -/
theorem C5_roundtrip {T : Type} (toStr : T → String) (parse : String → T) (t : T)
    (enum : List String)
    (ht1 : pyRstrip (toStr t) = toStr t) (ht2 : toStr t ≠ "")
    (hp : parse (toStr t) = t)
    (he : ∀ s ∈ enum, pyRstrip s = s ∧ s ≠ "") :
    Feed.loadLines parse (Feed.saveLines toStr t enum) = (some t, enum.toFinset) := by
  unfold Feed.loadLines Feed.saveLines
  simp only [loadGo, ht1]
  rw [if_neg ht2, hp]
  rw [loadGo_some parse t enum ∅ he]
  simp

/-- Claim C5, witness at a concrete serialiser and identifier list. -/
theorem C5_roundtrip_witness :
    Feed.loadLines strXToNat (Feed.saveLines natToStrX 5 ["id1", "id2"]) =
      (some 5, (["id1", "id2"] : List String).toFinset) := by
  exact C5_roundtrip natToStrX strXToNat 5 ["id1", "id2"] (by decide) (by decide) (by decide)
    (by decide)

/-- Claim C9 (amended): outside the `Updated` outcome the known-item set
is untouched and nothing is saved; on an `Updated` outcome the set is
rewritten to exactly the identifier set of the current snapshot (and
saved) whenever some snapshot identifier is unknown or no prior state
existed — even when the unknown identifier is stale by published time
— and is untouched (nothing saved) when every snapshot identifier is
already known.  In particular the set shrinks to the snapshot: it is a
sliding window, not monotone. -/
theorem C9_known_items {f : Feed} {e : Nat} {fo : FetchOutcome} {r : UpdateResult}
    (hu : f.update e fo = .ok r) :
    (r.outcome ≠ .Updated → r.feed.old_items = f.old_items ∧ r.saved = false)
    ∧ (∀ fp, fo = .ok fp → r.outcome = .Updated →
        ((f.old_items = none ∨ ∃ it ∈ fp.entries, Feed.guid it ∉ f.old_items.getD ∅) →
            r.feed.old_items = some (snapshotGuids fp.entries) ∧ r.saved = true)
        ∧ ((f.old_items ≠ none ∧ ∀ it ∈ fp.entries, Feed.guid it ∈ f.old_items.getD ∅) →
            r.feed.old_items = f.old_items ∧ r.saved = false)) := by
  rcases update_ok_cases hu with ⟨f1, hg, hr⟩ | ⟨f1, hg, hfo, hr⟩ | ⟨f1, fp1, hg, hfo, hr⟩
  · have hf1 : f1 = { f with age := f.age + e } := gate_skip_fields hg
    subst hf1
    subst hr
    refine ⟨fun _ => ⟨rfl, rfl⟩, ?_⟩
    intro fp2 hfo2 hout
    simp at hout
  · have hf1 : f1 = { f with age := (f.age + e) % f.interval } := gate_pass_fields hg
    subst hf1
    subst hr
    refine ⟨fun _ => ⟨rfl, rfl⟩, ?_⟩
    intro fp2 hfo2 hout
    simp at hout
  · have hf1 : f1 = { f with age := (f.age + e) % f.interval } := gate_pass_fields hg
    subst hf1
    subst hr
    constructor
    · intro hne
      by_cases hng : noopGuard { f with age := (f.age + e) % f.interval } fp1
      · have hn := pf_noop hng
        exact ⟨hn.2.1, hn.2.2.2.1⟩
      · exfalso
        by_cases hno : f.old_items = none
        · exact hne (pf_seed hng (show Feed.old_items
            { f with age := (f.age + e) % f.interval } = none from hno)).1
        · obtain ⟨old, hoi⟩ := Option.ne_none_iff_exists'.mp hno
          exact hne (pf_known hng (show Feed.old_items
            { f with age := (f.age + e) % f.interval } = some old from hoi)).1
    · intro fp2 hfo2 hout
      have hfp : fp1 = fp2 := FetchOutcome.ok.inj (hfo.symm.trans hfo2)
      subst hfp
      by_cases hng : noopGuard { f with age := (f.age + e) % f.interval } fp1
      · rw [(pf_noop hng).1] at hout
        simp at hout
      · by_cases hno : f.old_items = none
        · have hs := pf_seed hng (show Feed.old_items
            { f with age := (f.age + e) % f.interval } = none from hno)
          constructor
          · intro _
            exact ⟨hs.2.2.2.1, hs.2.2.1⟩
          · intro hall
            exact absurd hno hall.1
        · obtain ⟨old, hoi⟩ := Option.ne_none_iff_exists'.mp hno
          have hk := pf_known hng (show Feed.old_items
            { f with age := (f.age + e) % f.interval } = some old from hoi)
          have hite := hk.2.2.2.2
          constructor
          · intro hnew
            rcases hnew with hnone | ⟨it, hit, hmem⟩
            · exact absurd hnone hno
            · simp only [hoi, Option.getD_some] at hmem
              have hany : fp1.entries.any (fun x => !(decide (Feed.guid x ∈ old)))
                  = true := by
                refine List.any_eq_true.mpr ⟨it, hit, ?_⟩
                simp [hmem]
              rw [if_pos hany] at hite
              exact ⟨hite.1, hite.2.2⟩
          · intro hall
            have hall2 : ∀ it ∈ fp1.entries, Feed.guid it ∈ old := by
              intro it hit
              have h := hall.2 it hit
              simp only [hoi, Option.getD_some] at h
              exact h
            have hany : ¬ (fp1.entries.any (fun x => !(decide (Feed.guid x ∈ old)))
                = true) := by
              simp only [List.any_eq_true, not_exists]
              rintro it ⟨hit, hb⟩
              simp [hall2 it hit] at hb
            rw [if_neg hany] at hite
            exact ⟨hite.1, hite.2.2⟩

/-- Claim C9, witness at a concrete input: the snapshot with the new
item c replaces the persisted set and is saved. -/
theorem C9_known_items_witness :
    ∃ r, Feed.update feedC9 30 (.ok fetchC9) = .ok r
      ∧ r.feed.old_items = some (snapshotGuids fetchC9.entries) ∧ r.saved = true := by
  obtain ⟨r, hr⟩ : ∃ r, Feed.update feedC9 30 (.ok fetchC9) = .ok r := ⟨_, rfl⟩
  have h2 : resOutcome (Feed.update feedC9 30 (.ok fetchC9)) = some Outcome.Updated := by decide
  rw [hr] at h2
  have hout : r.outcome = .Updated := Option.some.inj h2
  have hnew : feedC9.old_items = none
      ∨ ∃ it ∈ fetchC9.entries, Feed.guid it ∉ feedC9.old_items.getD ∅ :=
    Or.inr ⟨itemG "c", by decide, by decide⟩
  exact ⟨r, hr, ((C9_known_items hr).2 fetchC9 rfl hout).1 hnew⟩

/-- Claim C10: an update with prior state whose fetch succeeds, reaches
the dedup pass (outcome `Updated`) and finds every snapshot identifier
already known leaves the known-item set, the persisted timestamp and
the state file untouched (no save), announces nothing, and replaces
the stored validators by the ones of the fetched response. -/
theorem C10_frame {f : Feed} {e : Nat} {fp : FetchResult} {r : UpdateResult}
    {old : Finset String} (hold : f.old_items = some old)
    (hknown : ∀ it ∈ fp.entries, Feed.guid it ∈ old)
    (hu : f.update e (.ok fp) = .ok r) (hout : r.outcome = .Updated) :
    r.feed.old_items = f.old_items ∧ r.feed.old_time = f.old_time ∧ r.saved = false
    ∧ r.feed.etag = fp.etag ∧ r.feed.modified = fp.modified ∧ r.announced = [] := by
  rcases update_ok_cases hu with ⟨f1, hg, hr⟩ | ⟨f1, hg, hfo, hr⟩ | ⟨f1, fp1, hg, hfo, hr⟩
  · rw [hr] at hout
    simp at hout
  · exact FetchOutcome.noConfusion hfo
  · have hfp : fp = fp1 := FetchOutcome.ok.inj hfo
    subst hfp
    have hf1 : f1 = { f with age := (f.age + e) % f.interval } := gate_pass_fields hg
    subst hf1
    by_cases hng : noopGuard { f with age := (f.age + e) % f.interval } fp
    · rw [hr] at hout
      rw [(pf_noop hng).1] at hout
      simp at hout
    · have hk := pf_known hng (show Feed.old_items { f with age := (f.age + e) % f.interval }
        = some old from hold)
      have hany : ¬ (fp.entries.any (fun it => !(decide (Feed.guid it ∈ old))) = true) := by
        simp only [List.any_eq_true, not_exists]
        rintro it ⟨hit, hb⟩
        simp [hknown it hit] at hb
      have hite := hk.2.2.2.2
      rw [if_neg hany] at hite
      have hfilter : (fp.entries.reverse).filter (qualifies old f.old_time) = [] := by
        refine List.filter_eq_nil_iff.mpr ?_
        intro it hit
        have hmem := hknown it (List.mem_reverse.mp hit)
        simp [qualifies, hmem]
      subst hr
      refine ⟨hite.1, hite.2.1, hite.2.2, hk.2.2.1, hk.2.2.2.1, ?_⟩
      rw [hk.2.1, hfilter]
      simp

/-- Claim C10, witness at a concrete input: fresh etag, all identifiers
known. -/
theorem C10_frame_witness :
    ∃ r, Feed.update feedW10 30 (.ok fetchW10) = .ok r ∧ r.outcome = .Updated
      ∧ r.feed.old_items = feedW10.old_items ∧ r.feed.old_time = feedW10.old_time
      ∧ r.saved = false ∧ r.feed.etag = fetchW10.etag
      ∧ r.feed.modified = fetchW10.modified ∧ r.announced = [] := by
  obtain ⟨r, hr⟩ : ∃ r, Feed.update feedW10 30 (.ok fetchW10) = .ok r := ⟨_, rfl⟩
  have h2 : resOutcome (Feed.update feedW10 30 (.ok fetchW10))
      = some Outcome.Updated := by decide
  rw [hr] at h2
  have hout : r.outcome = .Updated := Option.some.inj h2
  obtain ⟨ha, hb, hc, hd, hf, hg2⟩ := C10_frame rfl (by decide) hr hout
  exact ⟨r, hr, hout, ha, hb, hc, hd, hf, hg2⟩

/-- Claim C3 (amended): the tick traversal starts at the rotation cursor
and wraps through all feeds at most once (one lap, no repeats); it
stops at the first feed whose update performed a network check, that
is, returned anything but `Skipped` — `Updated`, `Unchanged` and
`Disabled` all stop it, not only `Updated` — advancing the cursor one
past that feed and leaving the feeds after the stopping point
untouched. -/
theorem C3_rotation {pairs : List (Feed × FetchOutcome)} {e next : Nat}
    {l1 : List Nat} {i : Nat} {l2 : List Nat}
    (hidx : tickIndices pairs.length next = l1 ++ i :: l2)
    (hskip : ∀ j ∈ l1, ∃ f fo r, pairs[j]? = some (f, fo) ∧ f.update e fo = .ok r
        ∧ r.outcome = .Skipped)
    (hstop : ∃ f fo r, pairs[i]? = some (f, fo) ∧ f.update e fo = .ok r
        ∧ r.outcome ≠ .Skipped) :
    (∃ pairs1, update_feeds pairs e next = .done pairs1 (i + 1)
        ∧ ∀ j ∈ l2, pairs1[j]? = pairs[j]?)
    ∧ (tickIndices pairs.length next).length = pairs.length
    ∧ (tickIndices pairs.length next).Nodup := by
  have hnd : (l1 ++ i :: l2).Nodup := hidx ▸ tickIndices_nodup pairs.length next
  obtain ⟨h1, h2, hdisj⟩ := List.nodup_append.mp hnd
  obtain ⟨pairs1, heq, hframe⟩ := runTick_stops e i l2 l1 pairs next hnd hskip hstop
  refine ⟨⟨pairs1, ?_, ?_⟩, tickIndices_length _ _, tickIndices_nodup _ _⟩
  · unfold update_feeds
    rw [hidx]
    exact heq
  · intro j hj
    refine hframe j (fun hm => hdisj hm (by simp [hj])) ?_
    intro hji
    exact (List.nodup_cons.mp h2).1 (hji ▸ hj)

/-- Claim C3, witness: a skipping feed followed by an updating feed; the
tick stops after the second feed with cursor 2. -/
theorem C3_rotation_witness :
    ∃ pairs1, update_feeds pairsW3 30 0 = .done pairs1 2
      ∧ ∀ j ∈ ([] : List Nat), pairs1[j]? = pairsW3[j]? := by
  have hskip : ∀ j ∈ [0], ∃ f fo r, pairsW3[j]? = some (f, fo)
      ∧ Feed.update f 30 fo = .ok r ∧ r.outcome = .Skipped := by
    intro j hj
    simp only [List.mem_singleton] at hj
    subst hj
    exact ⟨_, _, _, rfl, rfl, rfl⟩
  have hstop : ∃ f fo r, pairsW3[1]? = some (f, fo) ∧ Feed.update f 30 fo = .ok r
      ∧ r.outcome ≠ .Skipped := ⟨_, _, _, rfl, rfl, by decide⟩
  exact (@C3_rotation pairsW3 30 0 [0] 1 [] rfl hskip hstop).1

/-- Claim C8 (amended): `update_feeds` has no handler around
`Feed.update`, so an unexpected failure propagates out of the tick (the
mutual-exclusion guard is released by the `with` statement, which is
outside this pure model); the cursor has already advanced one past the
failing feed, but the failure is not treated as `Disabled`: the
remaining feeds of the traversal are not processed in that tick. -/
theorem C8_uncaught {pairs : List (Feed × FetchOutcome)} {e next : Nat}
    {l1 : List Nat} {i : Nat} {l2 : List Nat}
    (hidx : tickIndices pairs.length next = l1 ++ i :: l2)
    (hskip : ∀ j ∈ l1, ∃ f fo r, pairs[j]? = some (f, fo) ∧ f.update e fo = .ok r
        ∧ r.outcome = .Skipped)
    (hraise : ∃ f fo f1, pairs[i]? = some (f, fo) ∧ f.update e fo = .error f1) :
    ∃ pairs1, update_feeds pairs e next = .raised pairs1 (i + 1)
      ∧ ∀ j ∈ l2, pairs1[j]? = pairs[j]? := by
  have hnd : (l1 ++ i :: l2).Nodup := hidx ▸ tickIndices_nodup pairs.length next
  obtain ⟨h1, h2, hdisj⟩ := List.nodup_append.mp hnd
  obtain ⟨pairs1, heq, hframe⟩ := runTick_raises e i l2 l1 pairs next hnd hskip hraise
  refine ⟨pairs1, ?_, ?_⟩
  · unfold update_feeds
    rw [hidx]
    exact heq
  · intro j hj
    refine hframe j (fun hm => hdisj hm (by simp [hj])) ?_
    intro hji
    exact (List.nodup_cons.mp h2).1 (hji ▸ hj)

/-- Claim C8, witness: a skipping feed, a raising feed, and a third feed
that the aborted tick leaves untouched. -/
theorem C8_uncaught_witness :
    ∃ pairs1, update_feeds pairsW8 30 0 = .raised pairs1 2
      ∧ ∀ j ∈ [2], pairs1[j]? = pairsW8[j]? := by
  have hskip : ∀ j ∈ [0], ∃ f fo r, pairsW8[j]? = some (f, fo)
      ∧ Feed.update f 30 fo = .ok r ∧ r.outcome = .Skipped := by
    intro j hj
    simp only [List.mem_singleton] at hj
    subst hj
    exact ⟨_, _, _, rfl, rfl, rfl⟩
  have hraise : ∃ f fo f1, pairsW8[1]? = some (f, fo)
      ∧ Feed.update f 30 fo = .error f1 := ⟨_, _, _, rfl, rfl⟩
  exact @C8_uncaught pairsW8 30 0 [0] 1 [2] rfl hskip hraise

end StaticRSS
